import Mathlib

/-!
Verification development for the `ModisRequestProject` client library
(`nasawebservice` package).  The definitions below are a shallow embedding of
the Python source:

* `src/nasawebservice/utils/utils.py` — `_find_closest_composite_date`,
  `compute_date_interval`;
* `src/nasawebservice/dataprovider/provider.py` — `_response`,
  `_response_fault_handling`, `_error_fault_handling`, the
  `maximum_concurrent_number` property, `execute_many`,
  `available_products_by_date`, and the chunk-splitting step of
  `_asynchronous_execute_all`;
* `src/nasawebservice/parameters/parameters.py` — the `Products` vocabulary.

Decoded JSON payloads (Python objects) are modelled by the inductive type
`PyObj`; Python dictionaries keep their insertion order as association lists,
mirroring CPython semantics.  Machine-level details (`int()` parsing,
`str()` rendering, `str.upper()`, string comparison, `range`, slices) are
modelled by executable Lean functions that reproduce the Python behaviour on
the values that occur in this program.
-/

namespace ModisSpec

/-- Model of a decoded Python/JSON value as produced by `response.json()`.
`PyObj.none` models the Python value `None` (which is also what JSON `null`
decodes to). -/
inductive PyObj : Type where
  | dict (entries : List (String × PyObj))
  | str (s : String)
  | int (n : Int)
  | list (xs : List PyObj)
  | bool (b : Bool)
  | none

/-- Model of `dict.get(k, d)`: the value stored under the first matching key,
or the default `d` when the key is absent. -/
def assocGetD (es : List (String × PyObj)) (k : String) (d : PyObj) : PyObj :=
  match es.find? (fun kv => kv.1 == k) with
  | some kv => kv.2
  | Option.none => d

/-- Model of `d[k]` / `d.get(k)` on a Python mapping, defaulting to `None`
(non-mappings have no items; the program only indexes mappings here). -/
def pyGet (o : PyObj) (k : String) : PyObj :=
  match o with
  | .dict es => assocGetD es k .none
  | _ => .none

/-- Convenience: read a string-valued field, with `""` for the cases that
would be a `TypeError`/`AttributeError` in Python (the theorems below only
use this under well-formedness hypotheses that rule those cases out). -/
def pyGetStrD (o : PyObj) (k : String) : String :=
  match pyGet o k with
  | .str s => s
  | _ => ""

/-- View a `PyObj` as a Python list (the program only iterates lists here). -/
def asList (o : PyObj) : List PyObj :=
  match o with
  | .list xs => xs
  | _ => []

/-- Boolean test of `needle` being a prefix of the second list. -/
def listStartsWith : List Char → List Char → Bool
  | [], _ => true
  | _ :: _, [] => false
  | a :: as, b :: bs => a == b && listStartsWith as bs

/-- Boolean substring test, used to model Python `needle in string`. -/
def containsSub (needle : List Char) : List Char → Bool
  | [] => needle.isEmpty
  | c :: cs => listStartsWith needle (c :: cs) || containsSub needle cs

/-- Model of the Python membership test `k in o` for the shapes this program
applies it to: key lookup on a mapping, element equality on a list (only a
string element can equal the string `k`), substring test on a string. -/
def pyContains (o : PyObj) (k : String) : Bool :=
  match o with
  | .dict es => es.any (fun kv => kv.1 == k)
  | .list xs => xs.any (fun x => match x with | .str s => s == k | _ => false)
  | .str s => containsSub k.toList s.toList
  | _ => false

/-- Model of `d[k] = v` on an insertion-ordered dictionary: an existing key is
updated in place, a new key is appended. -/
def assocSet (es : List (String × PyObj)) (k : String) (v : PyObj) :
    List (String × PyObj) :=
  if es.any (fun kv => kv.1 == k) then
    es.map (fun kv => if kv.1 == k then (k, v) else kv)
  else es ++ [(k, v)]

/-- Model of `d.update(kvs)` on a Python dictionary (non-dictionaries are
returned unchanged; the program never updates a non-dictionary). -/
def pyUpdate (o : PyObj) (kvs : List (String × PyObj)) : PyObj :=
  match o with
  | .dict es => .dict (kvs.foldl (fun acc kv => assocSet acc kv.1 kv.2) es)
  | other => other

/-- Model of the Python dictionary merge `{**a, **b}` — entries of `a`
followed by entries of `b`, `b` winning on key clashes. -/
def pyMergeDicts (a b : PyObj) : PyObj :=
  match b with
  | .dict eb => pyUpdate a eb
  | _ => a

/-- The ten ASCII digit characters. -/
def digitChars : List Char := ['0', '1', '2', '3', '4', '5', '6', '7', '8', '9']

/-- Boolean ASCII-digit test (the digits accepted by Python `int()` for the
strings this program parses). -/
def isAsciiDigit (c : Char) : Bool := digitChars.contains c

/-- Numeric value of an ASCII digit character. -/
def digitVal (c : Char) : Nat := c.toNat - 48

/-- Rendering of a single decimal digit, as Python `str()` does. -/
def digitChar (d : Nat) : Char :=
  match d with
  | 0 => '0' | 1 => '1' | 2 => '2' | 3 => '3' | 4 => '4'
  | 5 => '5' | 6 => '6' | 7 => '7' | 8 => '8' | _ => '9'

/-- Value of a most-significant-first digit string. -/
def pyIntDigits (cs : List Char) : Nat :=
  cs.foldl (fun a c => 10 * a + digitVal c) 0

/-- Model of Python `int(s)` on the (unsigned, decimal) strings this program
parses: `none` models the `ValueError` raised on an empty or non-digit
string. -/
def pyIntNat? (cs : List Char) : Option Nat :=
  if cs.isEmpty then Option.none
  else if cs.all isAsciiDigit then some (pyIntDigits cs) else Option.none

/-- Fuel-based decimal rendering, least significant digit peeled first into
the accumulator — the shape of Python's `str()` on a nonnegative `int`. -/
def toDigitsCore : Nat → Nat → List Char → List Char
  | 0, _, acc => acc
  | fuel + 1, n, acc =>
    let d := digitChar (n % 10)
    if n / 10 = 0 then d :: acc
    else toDigitsCore fuel (n / 10) (d :: acc)

/-- Model of Python `str(n)` for a nonnegative integer `n`. -/
def pyStr (n : Nat) : String := (toDigitsCore (n + 1) n []).asString

/-- Model of `s.replace('A', '')`: every occurrence of the single character
`'A'` is removed. -/
def stripA (s : String) : List Char := s.toList.filter (fun c => c ≠ 'A')

/-- Numeric value of a composite date string, i.e. the Python expression
`int(s.replace('A', ''))`; `none` models the `ValueError` on malformed
input. -/
def compositeVal? (s : String) : Option Nat := pyIntNat? (stripA s)

/-- Parse a whole list of composite dates, i.e. the Python list comprehension
`[int(d.replace('A', '')) for d in items]`; `none` when any element fails. -/
def parseAll : List String → Option (List Nat)
  | [] => some []
  | d :: ds =>
    match compositeVal? d, parseAll ds with
    | some v, some vs => some (v :: vs)
    | _, _ => Option.none

/-- Model of `abs(x - pivot)` on Python integers. -/
def pyAbsSub (x p : Nat) : Nat := ((x : Int) - (p : Int)).natAbs

/-- Model of `min(x :: xs, key=key)`: the first element (in iteration order)
whose key is minimal. -/
def pyMinBy {α : Type} (key : α → Nat) (x : α) (xs : List α) : α :=
  xs.foldl (fun best y => if key y < key best then y else best) x

/-- Embedding of `_find_closest_composite_date` from
`src/nasawebservice/utils/utils.py`: parse the pivot and every item, take the
item value closest to the pivot, and rebuild a date string as the f-string
`A` followed by `str(closest)`.  `none` models the `ValueError` raised by
`int()` on malformed input or by `min()` on an empty list. -/
def find_closest_composite_date (items : List String) (pivot : String) :
    Option String :=
  match compositeVal? pivot with
  | Option.none => Option.none
  | some p =>
    match parseAll items with
    | Option.none => Option.none
    | some vals =>
      match vals with
      | [] => Option.none
      | v :: vs => some ("A" ++ pyStr (pyMinBy (fun x => pyAbsSub x p) v vs))

/-- The two kinds of `ValueError` raised inside `compute_date_interval`:
`invalidRange` is the explicit `raise ValueError(f'End date ...')` of the
range check, `valueError` covers the `ValueError`s raised by `int()`,
`min()` and `list.index()`. -/
inductive UtilsError : Type where
  | invalidRange
  | valueError
  deriving DecidableEq

/-- Embedding of `compute_date_interval` from
`src/nasawebservice/utils/utils.py`.  The raw start and end dates are parsed
and compared first (`int(start) - int(end) > 0` raises the invalid-range
`ValueError`); then both endpoints are snapped with
`_find_closest_composite_date`, located with `list.index` (first occurrence;
a failed lookup raises `ValueError`), and the slice
`all_dates[i_start : i_end + 1]` is yielded element by element.  The
generator's yields are collected into the returned list. -/
def compute_date_interval (all_dates : List String)
    (start_date end_date : String) : Except UtilsError (List String) :=
  match compositeVal? start_date, compositeVal? end_date with
  | some sv, some ev =>
    if (sv : Int) - (ev : Int) > 0 then .error .invalidRange
    else
      match find_closest_composite_date all_dates start_date,
            find_closest_composite_date all_dates end_date with
      | some sc, some ec =>
        match List.findIdx? (fun d => d == sc) all_dates,
              List.findIdx? (fun d => d == ec) all_dates with
        | some i, some j => .ok ((all_dates.drop i).take (j + 1 - i))
        | _, _ => .error .valueError
      | _, _ => .error .valueError
  | _, _ => .error .valueError

/-- Shape of an obtained HTTP response, as seen by `_response` in
`src/nasawebservice/dataprovider/provider.py`: status code, reason phrase,
final URL, the decoded JSON body (`response.json()`) and the raw text body
(`response.text`). -/
structure HttpResponse : Type where
  status_code : Int
  reason : String
  url : String
  body : PyObj
  text : String

/-- Outcome of one HTTP attempt, matching the `try/except` arms of
`_response`: an obtained response (success or HTTP error), an
`HTTPError` whose `.response` is `None`, a `ConnectionError`, a `Timeout`,
or an ambiguous `RequestException`.  Each exception carries
`error_obj.request.url`, the attempted URL. -/
inductive HttpAttempt : Type where
  | response (r : HttpResponse)
  | httpErrorNoResponse (requestUrl : String)
  | connectionFailure (requestUrl : String)
  | timeoutFailure (requestUrl : String)
  | ambiguousFailure (requestUrl : String)

/-- Embedding of the static method `_error_fault_handling`: the normalized
error mapping for an exception with no usable HTTP response. -/
def error_fault_handling (requestUrl : String) (status_code : Int)
    (title : String) : PyObj :=
  .dict [("status", .int status_code), ("title", .str title),
         ("url", .str requestUrl),
         ("detail", .str ("Exception for " ++ requestUrl))]

/-- Model of `s.rstrip('\n')`: trailing newline characters removed. -/
def pyRstripNewlines (s : String) : List Char :=
  (s.toList.reverse.dropWhile (fun c => c == '\n')).reverse

/-- Model of `s.replace('"', '')`: every double-quote character removed. -/
def pyRemoveQuotes (cs : List Char) : List Char :=
  cs.filter (fun c => c ≠ '\"')

/-- Embedding of the static method `_response_fault_handling`: the normalized
error mapping for an obtained non-success HTTP response.  The base mapping
`{status, title, url}` is built first and `detail` is then added by
`dict.update`, branching on the type of the decoded body exactly as the
`isinstance` chain does. -/
def response_fault_handling (r : HttpResponse) : PyObj :=
  let base := [("status", PyObj.int r.status_code),
               ("title", PyObj.str r.reason), ("url", PyObj.str r.url)]
  match r.body with
  | .dict es => .dict (assocSet base "detail" (assocGetD es "detail" .none))
  | .str _ =>
    .dict (assocSet base "detail"
      (.str (pyRemoveQuotes (pyRstripNewlines r.text)).asString))
  | _ => .dict (assocSet base "detail" (.str "something wrong"))

/-- Embedding of `_response`: on an obtained response, `response.ok` (no 4xx
or 5xx status) passes the decoded body through unchanged, while
`response.raise_for_status()` raises an `HTTPError` carrying the response
for a 4xx/5xx status, handled by `_response_fault_handling`; the four
exception arms delegate to `_error_fault_handling` with their fixed status
code and title. -/
def response_result (a : HttpAttempt) : PyObj :=
  match a with
  | .response r =>
    if 400 ≤ r.status_code ∧ r.status_code < 600 then response_fault_handling r
    else r.body
  | .httpErrorNoResponse u => error_fault_handling u 400 "HTTP ERROR"
  | .connectionFailure u => error_fault_handling u 777 "CONNECTION ERROR"
  | .timeoutFailure u => error_fault_handling u 777 "TIMEOUT ERROR"
  | .ambiguousFailure u => error_fault_handling u 777 "AMBIGUOUS ERROR"

/-- The per-instance state relevant to the `maximum_concurrent_number`
property of `NasaWebServiceAPIProvider` (initialised to `10` in
`__init__`). -/
structure ProviderState : Type where
  MAXIMUM_CONCURRENT_NUMBER : Int

/-- Embedding of the `maximum_concurrent_number` property getter. -/
def maximum_concurrent_number (s : ProviderState) : Int :=
  s.MAXIMUM_CONCURRENT_NUMBER

/-- The message of the `ValueError` raised by the setter (the f-string
interpolates the rejected value). -/
def concurrentNumberErrMsg (n : Int) : String :=
  "the maximum number of concurrent cannot be " ++ pyStr n.toNat ++
    ", since the API service cannot process more than 10 concurrent requests from the same host."

/-- Embedding of the `maximum_concurrent_number` property setter: a value
above `10` raises `ValueError` before the assignment (modelled by returning
the unchanged state paired with the error message); otherwise the stored
limit is replaced.  No lower bound is checked. -/
def set_maximum_concurrent_number (s : ProviderState) (concurrent_number : Int) :
    ProviderState × Option String :=
  if concurrent_number > 10 then (s, some (concurrentNumberErrMsg concurrent_number))
  else ({ s with MAXIMUM_CONCURRENT_NUMBER := concurrent_number }, Option.none)

/-- Lexicographic comparison of character lists by code point — the ordering
Python uses to compare strings. -/
def listLe : List Char → List Char → Bool
  | [], _ => true
  | _ :: _, [] => false
  | a :: as, b :: bs =>
    if a.toNat < b.toNat then true
    else if b.toNat < a.toNat then false
    else listLe as bs

/-- Model of Python string comparison `a <= b`. -/
def pyStrLe (a b : String) : Bool := listLe a.toList b.toList

/-- The sort key used by `execute_many`: compare date records by their
`modis_date` field, as `sorted(..., key=lambda x: x.get('modis_date'))`
does. -/
def modisLe (a b : PyObj) : Prop :=
  pyStrLe (pyGetStrD a "modis_date") (pyGetStrD b "modis_date") = true

instance : DecidableRel modisLe := fun _ _ =>
  inferInstanceAs (Decidable (_ = true))

/-- The sorted `modis_date` strings extracted by `execute_many` from a
successful dates payload: the `dates` records are sorted (stably) by their
`modis_date` key — modelled by insertion sort, which is stable like Python's
`sorted` — and the key is then projected out. -/
def sortedTimeDates (datesResp : PyObj) : List String :=
  (List.insertionSort modisLe (asList (pyGet datesResp "dates"))).map
    (fun d => pyGetStrD d "modis_date")

/-- Embedding of `execute_many` from
`src/nasawebservice/dataprovider/provider.py`, with the already-computed
dates payload and a `subset(start_date, end_date)` oracle abstracting the
two HTTP-calling methods.  When the dates payload contains a `status` key
the generator yields just that error mapping; otherwise it yields one
`subset(d, d)` result per date of the computed interval, in interval order.
A `ValueError` escaping `compute_date_interval` propagates (the `Except`
error). -/
def execute_many (datesResp : PyObj) (subset : String → String → PyObj)
    (start_date end_date : String) : Except UtilsError (List PyObj) :=
  if pyContains datesResp "status" then .ok [datesResp]
  else
    match compute_date_interval (sortedTimeDates datesResp) start_date end_date with
    | .ok interval => .ok (interval.map (fun d => subset d d))
    | .error e => .error e

/-- Model of Python `range(start, stop, step)` as a list; `none` models the
`ValueError` raised on `step = 0`. -/
def pyRange (start stop step : Int) : Option (List Int) :=
  if step = 0 then Option.none
  else
    let count : Nat :=
      if step > 0 then (stop - start + step - 1).toNat / step.toNat
      else (start - stop + (-step) - 1).toNat / (-step).toNat
    some ((List.range count).map (fun i => start + step * (i : Int)))

/-- Clamp a Python slice index into `[0, len]`, with negative indices counted
from the end. -/
def pySliceIdx (len : Nat) (i : Int) : Nat :=
  if i < 0 then ((len : Int) + i).toNat else min i.toNat len

/-- Model of the Python slice `xs[a:b]`. -/
def pySlice {α : Type} (xs : List α) (a b : Int) : List α :=
  (xs.take (pySliceIdx xs.length b)).drop (pySliceIdx xs.length a)

/-- Embedding of the chunk-splitting generator of `_asynchronous_execute_all`
(lines 1279–1280 of `provider.py`):
`(dates[i : i + mcn] for i in range(0, len(dates), mcn))` where `mcn` is the
configured maximum concurrent number.  `none` models the `ValueError` raised
by `range` when the configured limit is `0`. -/
def chunkDates (dates : List String) (mcn : Int) : Option (List (List String)) :=
  match pyRange 0 (dates.length : Int) mcn with
  | some idxs => some (idxs.map (fun i => pySlice dates i (i + mcn)))
  | Option.none => Option.none

/-- Model of `str.upper()` on the ASCII product codes this program handles. -/
def pyCharUpper (c : Char) : Char :=
  if 97 ≤ c.toNat ∧ c.toNat ≤ 122 then Char.ofNat (c.toNat - 32) else c

/-- Model of `s.upper()`. -/
def pyUpper (s : String) : String := (s.toList.map pyCharUpper).asString

/-- The value of `str(product)` for every member of the `Products`
enumeration in `src/nasawebservice/parameters/parameters.py` — the set
`all_products` built at the top of `available_products_by_date`. -/
def productsVocabulary : List String :=
  ["MOD09A1", "MOD11A2", "MOD13Q1", "MOD14A2", "MOD15A2H", "MOD16A2",
   "MOD17A2H", "MOD17A3HGF", "MOD21A2", "MOD44B",
   "MYD09A1", "MYD11A2", "MYD13Q1", "MYD14A2", "MYD15A2H", "MYD16A2",
   "MYD17A2H", "MYD17A3HGF", "MYD21A2",
   "MCD12Q1", "MCD12Q2", "MCD15A2H", "MCD15A3H", "MCD19A3", "MCD43A",
   "MCD43A1", "MCD43A4", "MCD64A1",
   "VNP09A1", "VNP09H1", "VNP13A1", "VNP15A2H", "VNP21A2", "VNP22Q2",
   "Daymet", "SPL3SMP_E", "SPL4CMDL", "ECO4ESIPTJPL", "ECO4WUE",
   "SIF005", "SIF_ANN", "GEDI03", "GEDI04_B"]

/-- The inputs and collaborator calls of `available_products_by_date`:
the vocabulary `all_products`, the result of the `products(...)` call, a
`dates(...)` oracle keyed by the uppercased product code, the
`_requests_url` value observed when the synthetic not-available record is
built, the reference date, and the latitude/longitude as they render in the
f-string. -/
structure AvailCtx : Type where
  vocab : List String
  productsResp : PyObj
  datesOf : String → PyObj
  urlOf : String → String
  referenceDate : String
  latitudeStr : String
  longitudeStr : String

/-- The `product_report` dictionary `{date, available, not_available}`. -/
structure ProductReport : Type where
  date : String
  available : List PyObj
  not_available : List PyObj

/-- The report rendered back as the Python dictionary that is returned. -/
def ProductReport.toPy (r : ProductReport) : PyObj :=
  .dict [("date", .str r.date), ("available", .list r.available),
         ("not_available", .list r.not_available)]

/-- The detail f-string of the synthetic `NO DATA AVAILABLE` record. -/
def noDataDetail (ctx : AvailCtx) (code : String) : String :=
  "No data available for day " ++ ctx.referenceDate ++ " for " ++ code ++
    " " ++ ctx.latitudeStr ++ " " ++ ctx.longitudeStr ++ " combination."

/-- One iteration of the `for product in products_lst` body of
`available_products_by_date`: skip a product whose uppercased code is not in
the vocabulary; otherwise fetch its dates and classify the product as
available (reference date present), not available with a synthetic
`status 777` record merged in (reference date absent), or not available with
the dates error mapping merged in (dates call errored). -/
def availStep (ctx : AvailCtx) (report : ProductReport) (product : PyObj) :
    ProductReport :=
  let product_code := pyUpper (pyGetStrD product "product")
  if product_code ∈ ctx.vocab then
    let product_date := ctx.datesOf product_code
    if pyContains product_date "status" = false then
      let mdates := (asList (pyGet product_date "dates")).map
        (fun d => pyGetStrD d "modis_date")
      if ctx.referenceDate ∈ mdates then
        { report with available := report.available ++ [product] }
      else
        { report with not_available := report.not_available ++
            [pyUpdate product
              [("status", PyObj.int 777), ("title", PyObj.str "NO DATA AVAILABLE"),
               ("url", PyObj.str (ctx.urlOf product_code)),
               ("detail", PyObj.str (noDataDetail ctx product_code))]] }
    else
      { report with not_available := report.not_available ++
          [pyMergeDicts product product_date] }
  else report

/-- Embedding of `available_products_by_date`: a `products(...)` error
mapping is returned unchanged; otherwise the `for` loop over the product
list runs its body on the first product only, because `return
product_report` sits inside the loop body — so a non-empty list yields the
report after one iteration, and an empty list falls off the loop and the
method returns Python `None` (modelled by `Option.none`). -/
def available_products_by_date (ctx : AvailCtx) : Option PyObj :=
  if pyContains ctx.productsResp "status" then some ctx.productsResp
  else
    match asList (pyGet ctx.productsResp "products") with
    | [] => Option.none
    | p :: _ =>
      some (ProductReport.toPy
        (availStep ctx
          { date := ctx.referenceDate, available := [], not_available := [] } p))

/-- A composite date in the sense of the data model: the character `A`
followed by exactly 7 ASCII digits. -/
def isCompositeForm (s : String) : Bool :=
  (s.toList.take 1 == ['A']) && (s.toList.length == 8) &&
    (s.toList.drop 1).all isAsciiDigit

/-- A composite date whose 7-digit block does not start with `0`, so that
its numeric value re-renders to the same 7 digits. -/
def isGoodDate (s : String) : Bool :=
  isCompositeForm s && ((s.toList.drop 1).take 1 != ['0'])

/-! Helper lemmas about the decimal digit model. -/

theorem digit_cases {c : Char} (h : isAsciiDigit c = true) :
    c = '0' ∨ c = '1' ∨ c = '2' ∨ c = '3' ∨ c = '4' ∨ c = '5' ∨ c = '6' ∨
      c = '7' ∨ c = '8' ∨ c = '9' := by
  have hm : c ∈ digitChars := by
    simpa [isAsciiDigit, List.contains, List.elem_iff] using h
  simpa [digitChars] using hm

theorem digitVal_lt {c : Char} (h : isAsciiDigit c = true) : digitVal c < 10 := by
  rcases digit_cases h with rfl | rfl | rfl | rfl | rfl | rfl | rfl | rfl | rfl | rfl <;>
    decide

theorem digitChar_digitVal {c : Char} (h : isAsciiDigit c = true) :
    digitChar (digitVal c) = c := by
  rcases digit_cases h with rfl | rfl | rfl | rfl | rfl | rfl | rfl | rfl | rfl | rfl <;>
    decide

theorem digit_ne_A {c : Char} (h : isAsciiDigit c = true) : c ≠ 'A' := by
  rcases digit_cases h with rfl | rfl | rfl | rfl | rfl | rfl | rfl | rfl | rfl | rfl <;>
    decide

theorem digitVal_ne_zero {c : Char} (h : isAsciiDigit c = true) (h0 : c ≠ '0') :
    digitVal c ≠ 0 := by
  rcases digit_cases h with rfl | rfl | rfl | rfl | rfl | rfl | rfl | rfl | rfl | rfl
  · exact absurd rfl h0
  all_goals decide

theorem foldl_ofDigits (cs : List Char) : ∀ a : Nat,
    cs.foldl (fun x c => 10 * x + digitVal c) a =
      a * 10 ^ cs.length + Nat.ofDigits 10 ((cs.map digitVal).reverse) := by
  induction cs with
  | nil => intro a; simp [Nat.ofDigits_nil]
  | cons c cs ih =>
    intro a
    simp only [List.foldl_cons, List.map_cons, List.reverse_cons, List.length_cons]
    rw [ih, Nat.ofDigits_append, Nat.ofDigits_singleton, List.length_reverse,
      List.length_map]
    ring

theorem pyIntDigits_eq (cs : List Char) :
    pyIntDigits cs = Nat.ofDigits 10 ((cs.map digitVal).reverse) := by
  have h := foldl_ofDigits cs 0
  simpa [pyIntDigits] using h

theorem toDigitsCore_eq (n : Nat) : 0 < n → ∀ (fuel : Nat), n < fuel →
    ∀ acc, toDigitsCore fuel n acc =
      ((Nat.digits 10 n).map digitChar).reverse ++ acc := by
  induction n using Nat.strong_induction_on with
  | _ n ih =>
    intro hn fuel hf acc
    match fuel with
    | 0 => omega
    | f + 1 =>
      simp only [toDigitsCore]
      by_cases h10 : n / 10 = 0
      · have hlt : n < 10 := (Nat.div_eq_zero_iff (by norm_num)).mp h10
        rw [if_pos h10, Nat.digits_def' (by norm_num : (1 : ℕ) < 10) hn, h10,
          Nat.digits_zero, Nat.mod_eq_of_lt hlt]
        simp
      · have hpos : 0 < n / 10 := Nat.pos_of_ne_zero h10
        have hlt : n / 10 < n := Nat.div_lt_self hn (by norm_num)
        rw [if_neg h10, ih (n / 10) hlt hpos f (by omega) _,
          Nat.digits_def' (by norm_num : (1 : ℕ) < 10) hn]
        simp

theorem pyStr_eq {n : Nat} (hn : 0 < n) :
    pyStr n = (((Nat.digits 10 n).map digitChar).reverse).asString := by
  unfold pyStr
  rw [toDigitsCore_eq n hn (n + 1) (by omega) []]
  simp

theorem pyStr_pyIntDigits (c : Char) (cs : List Char)
    (hdig : ∀ x ∈ c :: cs, isAsciiDigit x = true) (hc : c ≠ '0') :
    pyStr (pyIntDigits (c :: cs)) = (c :: cs).asString := by
  have hval : pyIntDigits (c :: cs) =
      Nat.ofDigits 10 (((c :: cs).map digitVal).reverse) := pyIntDigits_eq _
  have hlt : ∀ x ∈ (((c :: cs).map digitVal).reverse), x < 10 := by
    intro x hx
    rw [List.mem_reverse, List.mem_map] at hx
    obtain ⟨a, ha, rfl⟩ := hx
    exact digitVal_lt (hdig a ha)
  have hlast : ∀ h : (((c :: cs).map digitVal).reverse) ≠ [],
      (((c :: cs).map digitVal).reverse).getLast h ≠ 0 := by
    intro h
    have h2 : (((c :: cs).map digitVal).reverse).getLast h = digitVal c := by
      simp only [List.map_cons, List.reverse_cons]
      exact List.getLast_concat _
    rw [h2]
    exact digitVal_ne_zero (hdig c (List.mem_cons_self c cs)) hc
  have hdg : Nat.digits 10 (Nat.ofDigits 10 (((c :: cs).map digitVal).reverse)) =
      ((c :: cs).map digitVal).reverse :=
    Nat.digits_ofDigits 10 (by norm_num) _ hlt hlast
  have hpos : 0 < Nat.ofDigits 10 (((c :: cs).map digitVal).reverse) := by
    rcases Nat.eq_zero_or_pos (Nat.ofDigits 10 (((c :: cs).map digitVal).reverse))
      with h0 | h0
    · rw [h0, Nat.digits_zero] at hdg
      simp at hdg
    · exact h0
  rw [hval, pyStr_eq hpos, hdg]
  congr 1
  rw [← List.map_reverse, List.reverse_reverse, List.map_map]
  exact List.map_congr_left (fun x hx => digitChar_digitVal (hdig x hx)) |>.trans
    (List.map_id _)

/-! Helper lemmas about composite date strings. -/

theorem isCompositeForm_elim {s : String} (h : isCompositeForm s = true) :
    ∃ ds, s.toList = 'A' :: ds ∧ ds.length = 7 ∧
      ∀ x ∈ ds, isAsciiDigit x = true := by
  unfold isCompositeForm at h
  rcases hl : s.toList with _ | ⟨a, t⟩ <;> rw [hl] at h
  · simp at h
  · simp only [Bool.and_eq_true, beq_iff_eq, List.all_eq_true] at h
    obtain ⟨⟨h1, h2⟩, h3⟩ := h
    have ha : a = 'A' := by simpa using h1
    subst ha
    exact ⟨t, rfl, by simpa using h2, by simpa using h3⟩

theorem isGoodDate_elim {s : String} (h : isGoodDate s = true) :
    ∃ c ds, s.toList = 'A' :: c :: ds ∧ (c :: ds).length = 7 ∧
      (∀ x ∈ c :: ds, isAsciiDigit x = true) ∧ c ≠ '0' := by
  unfold isGoodDate at h
  rw [Bool.and_eq_true] at h
  obtain ⟨h1, h2⟩ := h
  obtain ⟨ds, hds, hlen, hdig⟩ := isCompositeForm_elim h1
  rcases ds with _ | ⟨c, ds⟩
  · simp at hlen
  · refine ⟨c, ds, hds, hlen, hdig, ?_⟩
    rw [hds] at h2
    simpa using h2

theorem isGoodDate_form {s : String} (h : isGoodDate s = true) :
    isCompositeForm s = true := by
  unfold isGoodDate at h
  rw [Bool.and_eq_true] at h
  exact h.1

theorem stripA_of_form {s : String} {ds : List Char} (h : s.toList = 'A' :: ds)
    (hdig : ∀ c ∈ ds, isAsciiDigit c = true) : stripA s = ds := by
  unfold stripA
  rw [h]
  rw [List.filter_cons]
  simp only [decide_eq_true_eq]
  rw [if_neg (by simp)]
  exact List.filter_eq_self.mpr (fun a ha => by
    simpa using digit_ne_A (hdig a ha))

theorem compositeVal_of_form {s : String} (h : isCompositeForm s = true) :
    compositeVal? s = some (pyIntDigits (s.toList.drop 1)) := by
  obtain ⟨ds, hds, hlen, hdig⟩ := isCompositeForm_elim h
  have hstrip : stripA s = ds := stripA_of_form hds hdig
  unfold compositeVal? pyIntNat?
  rw [hstrip, hds]
  rcases ds with _ | ⟨c, t⟩
  · simp at hlen
  · rw [if_neg (by simp), if_pos (List.all_eq_true.mpr (fun x hx => hdig x hx))]
    simp

theorem goodDate_val {s : String} (h : isGoodDate s = true) :
    ∃ v, compositeVal? s = some v ∧ "A" ++ pyStr v = s := by
  obtain ⟨c, ds, hds, _, hdig, hc⟩ := isGoodDate_elim h
  have hv : compositeVal? s = some (pyIntDigits (c :: ds)) := by
    rw [compositeVal_of_form (isGoodDate_form h), hds]
    rfl
  refine ⟨pyIntDigits (c :: ds), hv, ?_⟩
  apply String.ext
  rw [String.data_append]
  show 'A' :: (pyStr (pyIntDigits (c :: ds))).data = s.data
  rw [pyStr_pyIntDigits c ds hdig hc]
  show 'A' :: c :: ds = s.data
  exact (show s.toList = 'A' :: c :: ds from hds).symm

/-! Helper lemmas about `parseAll` and `pyMinBy`. -/

theorem parseAll_of_forms {D : List String}
    (h : ∀ d ∈ D, isCompositeForm d = true) : ∃ vals, parseAll D = some vals := by
  induction D with
  | nil => exact ⟨[], rfl⟩
  | cons d ds ih =>
    obtain ⟨vals, hvals⟩ := ih (fun x hx => h x (List.mem_cons_of_mem _ hx))
    refine ⟨pyIntDigits (d.toList.drop 1) :: vals, ?_⟩
    unfold parseAll
    rw [compositeVal_of_form (h d (List.mem_cons_self d ds)), hvals]

theorem parseAll_mem_right {D : List String} {vals : List Nat}
    (h : parseAll D = some vals) :
    ∀ v ∈ vals, ∃ d ∈ D, compositeVal? d = some v := by
  induction D generalizing vals with
  | nil =>
    unfold parseAll at h
    injection h with h
    subst h
    simp
  | cons d ds ih =>
    unfold parseAll at h
    rcases hd : compositeVal? d with _ | v0 <;> rw [hd] at h
    · exact absurd h (by simp)
    · rcases hds : parseAll ds with _ | vs <;> rw [hds] at h
      · exact absurd h (by simp)
      · injection h with h
        subst h
        intro v hv
        rcases List.mem_cons.mp hv with rfl | hv
        · exact ⟨d, List.mem_cons_self d ds, hd⟩
        · obtain ⟨e, he, hev⟩ := ih hds v hv
          exact ⟨e, List.mem_cons_of_mem _ he, hev⟩

theorem parseAll_mem_left {D : List String} {vals : List Nat}
    (h : parseAll D = some vals) :
    ∀ d ∈ D, ∃ v ∈ vals, compositeVal? d = some v := by
  induction D generalizing vals with
  | nil => simp
  | cons d ds ih =>
    unfold parseAll at h
    rcases hd : compositeVal? d with _ | v0 <;> rw [hd] at h
    · exact absurd h (by simp)
    · rcases hds : parseAll ds with _ | vs <;> rw [hds] at h
      · exact absurd h (by simp)
      · injection h with h
        subst h
        intro e he
        rcases List.mem_cons.mp he with rfl | he
        · exact ⟨v0, List.mem_cons_self v0 vs, hd⟩
        · obtain ⟨v, hv, hev⟩ := ih hds e he
          exact ⟨v, List.mem_cons_of_mem _ hv, hev⟩

theorem parseAll_ne_nil {D : List String} {vals : List Nat}
    (h : parseAll D = some vals) (hne : D ≠ []) : vals ≠ [] := by
  rcases D with _ | ⟨d, ds⟩
  · exact absurd rfl hne
  · unfold parseAll at h
    rcases hd : compositeVal? d with _ | v0 <;> rw [hd] at h
    · exact absurd h (by simp)
    · rcases hds : parseAll ds with _ | vs <;> rw [hds] at h
      · exact absurd h (by simp)
      · injection h with h
        subst h
        simp

theorem pyMinBy_cons {α : Type} (key : α → Nat) (x y : α) (ys : List α) :
    pyMinBy key x (y :: ys) =
      pyMinBy key (if key y < key x then y else x) ys := rfl

theorem pyMinBy_mem {α : Type} (key : α → Nat) (x : α) (xs : List α) :
    pyMinBy key x xs ∈ x :: xs := by
  induction xs generalizing x with
  | nil => simp [pyMinBy]
  | cons y ys ih =>
    rw [pyMinBy_cons]
    by_cases h : key y < key x
    · rw [if_pos h]
      rcases List.mem_cons.mp (ih (x := y)) with h2 | h2
      · rw [h2]
        exact List.mem_cons_of_mem _ (List.mem_cons_self y ys)
      · exact List.mem_cons_of_mem _ (List.mem_cons_of_mem _ h2)
    · rw [if_neg h]
      rcases List.mem_cons.mp (ih (x := x)) with h2 | h2
      · rw [h2]
        exact List.mem_cons_self x (y :: ys)
      · exact List.mem_cons_of_mem _ (List.mem_cons_of_mem _ h2)

theorem pyMinBy_le {α : Type} (key : α → Nat) (x : α) (xs : List α) :
    ∀ y ∈ x :: xs, key (pyMinBy key x xs) ≤ key y := by
  induction xs generalizing x with
  | nil =>
    intro y hy
    rcases List.mem_cons.mp hy with rfl | hy
    · simp [pyMinBy]
    · simp at hy
  | cons z zs ih =>
    intro y hy
    rw [pyMinBy_cons]
    by_cases h : key z < key x
    · rw [if_pos h]
      rcases List.mem_cons.mp hy with h1 | hy2
      · rw [h1]
        calc key (pyMinBy key z zs) ≤ key z := ih z z (List.mem_cons_self z zs)
          _ ≤ key x := le_of_lt h
      · rcases List.mem_cons.mp hy2 with h1 | hy3
        · rw [h1]
          exact ih z z (List.mem_cons_self z zs)
        · exact ih z y (List.mem_cons_of_mem _ hy3)
    · rw [if_neg h]
      rcases List.mem_cons.mp hy with h1 | hy2
      · rw [h1]
        exact ih x x (List.mem_cons_self x zs)
      · rcases List.mem_cons.mp hy2 with h1 | hy3
        · rw [h1]
          calc key (pyMinBy key x zs) ≤ key x := ih x x (List.mem_cons_self x zs)
            _ ≤ key z := le_of_not_lt h
        · exact ih x y (List.mem_cons_of_mem _ hy3)

theorem findIdx_of_mem {l : List String} {a : String} (h : a ∈ l) :
    ∃ i, List.findIdx? (fun d => d == a) l = some i := by
  rcases hfi : List.findIdx? (fun d => d == a) l with _ | i
  · have := List.findIdx?_eq_none_iff.mp hfi a h
    simp at this
  · exact ⟨i, rfl⟩

/-! Specification lemmas for the date interval resolver. -/

theorem closest_spec {D : List String} {p : String} {pv : Nat} (hne : D ≠ [])
    (hD : ∀ d ∈ D, isGoodDate d = true) (hp : compositeVal? p = some pv) :
    ∃ r, find_closest_composite_date D p = some r ∧ r ∈ D ∧ (p ∈ D → r = p) := by
  obtain ⟨vals, hvals⟩ :=
    parseAll_of_forms (fun d hd => isGoodDate_form (hD d hd))
  rcases vals with _ | ⟨v0, vs⟩
  · exact absurd rfl (parseAll_ne_nil hvals hne)
  have hres : find_closest_composite_date D p =
      some ("A" ++ pyStr (pyMinBy (fun x => pyAbsSub x pv) v0 vs)) := by
    unfold find_closest_composite_date
    rw [hp, hvals]
  set m := pyMinBy (fun x => pyAbsSub x pv) v0 vs with hm
  obtain ⟨d, hd, hdm⟩ := parseAll_mem_right hvals m (pyMinBy_mem _ v0 vs)
  obtain ⟨w, hw, hws⟩ := goodDate_val (hD d hd)
  have hwm : w = m := by
    rw [hdm] at hw
    injection hw with h2
    exact h2.symm
  refine ⟨"A" ++ pyStr m, hres, ?_, ?_⟩
  · have hmd : "A" ++ pyStr m = d := by rw [← hwm, hws]
    rw [hmd]
    exact hd
  · intro hpD
    obtain ⟨u, hu, hus⟩ := goodDate_val (hD p hpD)
    have hupv : u = pv := by
      rw [hp] at hu
      injection hu with hu
      exact hu.symm
    obtain ⟨v, hvmem, hpv2⟩ := parseAll_mem_left hvals p hpD
    have hvpv : v = pv := by
      rw [hp] at hpv2
      injection hpv2 with h2
      exact h2.symm
    have hkey0 := pyMinBy_le (fun x => pyAbsSub x pv) v0 vs v hvmem
    rw [← hm] at hkey0
    have hzero : pyAbsSub m pv = 0 := by
      rw [hvpv] at hkey0
      simp only [pyAbsSub] at hkey0 ⊢
      omega
    have hmpv : m = pv := by
      unfold pyAbsSub at hzero
      have h2 : ((m : Int) - (pv : Int)) = 0 := Int.natAbs_eq_zero.mp hzero
      omega
    rw [hmpv, ← hupv, hus]

theorem interval_spec {D : List String} {s e : String} {sv ev : Nat}
    (hne : D ≠ []) (hD : ∀ d ∈ D, isGoodDate d = true)
    (hsv : compositeVal? s = some sv) (hev : compositeVal? e = some ev)
    (hle : sv ≤ ev) :
    ∃ sc ec i j, find_closest_composite_date D s = some sc ∧
      find_closest_composite_date D e = some ec ∧
      List.findIdx? (fun d => d == sc) D = some i ∧
      List.findIdx? (fun d => d == ec) D = some j ∧
      compute_date_interval D s e = .ok ((D.drop i).take (j + 1 - i)) := by
  obtain ⟨sc, hsc, hscD, -⟩ := closest_spec hne hD hsv
  obtain ⟨ec, hec, hecD, -⟩ := closest_spec hne hD hev
  obtain ⟨i, hi⟩ := findIdx_of_mem hscD
  obtain ⟨j, hj⟩ := findIdx_of_mem hecD
  refine ⟨sc, ec, i, j, hsc, hec, hi, hj, ?_⟩
  unfold compute_date_interval
  simp only [hsv, hev]
  rw [if_neg (show ¬ ((sv : Int) - (ev : Int) > 0) by omega)]
  simp only [hsc, hec, hi, hj]

/-! Helper lemmas about the Python string ordering. -/

theorem listLe_total : ∀ a b : List Char, (listLe a b || listLe b a) = true := by
  intro a
  induction a with
  | nil => intro b; simp [listLe]
  | cons x xs ih =>
    intro b
    rcases b with _ | ⟨y, ys⟩
    · simp [listLe]
    · simp only [listLe]
      by_cases h1 : x.toNat < y.toNat
      · simp [if_pos h1]
      · by_cases h2 : y.toNat < x.toNat
        · simp only [if_neg h1, if_pos h2]
          simp
        · simp only [if_neg h1, if_neg h2]
          exact ih ys

theorem listLe_trans : ∀ a b c : List Char,
    listLe a b = true → listLe b c = true → listLe a c = true := by
  intro a
  induction a with
  | nil => intro b c _ _; simp [listLe]
  | cons x xs ih =>
    intro b c hab hbc
    rcases b with _ | ⟨y, ys⟩
    · simp [listLe] at hab
    rcases c with _ | ⟨z, zs⟩
    · simp [listLe] at hbc
    simp only [listLe] at hab hbc ⊢
    by_cases h1 : x.toNat < y.toNat
    · by_cases h2 : y.toNat < z.toNat
      · rw [if_pos (show x.toNat < z.toNat by omega)]
      · by_cases h3 : z.toNat < y.toNat
        · rw [if_neg h2, if_pos h3] at hbc
          simp at hbc
        · rw [if_pos (show x.toNat < z.toNat by omega)]
    · by_cases h4 : y.toNat < x.toNat
      · rw [if_neg h1, if_pos h4] at hab
        simp at hab
      · rw [if_neg h1, if_neg h4] at hab
        by_cases h2 : y.toNat < z.toNat
        · rw [if_pos (show x.toNat < z.toNat by omega)]
        · by_cases h3 : z.toNat < y.toNat
          · rw [if_neg h2, if_pos h3] at hbc
            simp at hbc
          · rw [if_neg h2, if_neg h3] at hbc
            rw [if_neg (show ¬ x.toNat < z.toNat by omega),
              if_neg (show ¬ z.toNat < x.toNat by omega)]
            exact ih ys zs hab hbc

instance : IsTotal PyObj modisLe :=
  ⟨fun a b => by
    unfold modisLe pyStrLe
    by_cases hx : listLe (pyGetStrD a "modis_date").toList
        (pyGetStrD b "modis_date").toList = true
    · exact Or.inl hx
    · right
      have h := listLe_total (pyGetStrD a "modis_date").toList
        (pyGetStrD b "modis_date").toList
      rw [Bool.not_eq_true] at hx
      rw [hx] at h
      simpa using h⟩

instance : IsTrans PyObj modisLe :=
  ⟨fun _ _ _ hab hbc => listLe_trans _ _ _ hab hbc⟩

theorem sortedTimeDates_sorted (datesResp : PyObj) :
    List.Pairwise (fun a b => pyStrLe a b = true) (sortedTimeDates datesResp) := by
  unfold sortedTimeDates
  exact List.Pairwise.map _ (fun a b h => h)
    (List.sorted_insertionSort modisLe (asList (pyGet datesResp "dates")))

theorem pairwise_slice {S : String → String → Prop} {l : List String}
    (h : List.Pairwise S l) (i k : Nat) :
    List.Pairwise S ((l.drop i).take k) :=
  List.Pairwise.sublist ((List.take_sublist _ _).trans (List.drop_sublist _ _)) h

/-! Claim theorems. -/

/-- C1 (counterexample): the claim asserts status `777` for every transport
failure with no obtainable HTTP status, including the `HTTPError`-with-no-
response category (title `HTTP ERROR`); but `_response` passes
`status_code=400` to `_error_fault_handling` in that arm, so the normalized
status is `400`, not `777`. -/
theorem C1_counterexample :
    pyGet (response_result (.httpErrorNoResponse "http://modis.test")) "status" =
      PyObj.int 400 ∧
    pyGet (response_result (.httpErrorNoResponse "http://modis.test")) "title" =
      PyObj.str "HTTP ERROR" ∧
    PyObj.int 400 ≠ PyObj.int 777 :=
  ⟨rfl, rfl, by simp⟩

/-- C1 (amended): for every HTTP attempt that fails with no obtainable HTTP
response, the normalized result is a mapping whose title names the failure
category, whose url is the attempted URL and whose detail is
`Exception for <url>`; the status is `777` for the connection, timeout and
ambiguous categories, but `400` for the HTTP-layer-error-without-response
category. -/
theorem C1_amended_transport_error_shape (u : String) :
    (pyGet (response_result (.connectionFailure u)) "status" = .int 777 ∧
     pyGet (response_result (.connectionFailure u)) "title" = .str "CONNECTION ERROR" ∧
     pyGet (response_result (.connectionFailure u)) "url" = .str u ∧
     pyGet (response_result (.connectionFailure u)) "detail" =
       .str ("Exception for " ++ u)) ∧
    (pyGet (response_result (.timeoutFailure u)) "status" = .int 777 ∧
     pyGet (response_result (.timeoutFailure u)) "title" = .str "TIMEOUT ERROR" ∧
     pyGet (response_result (.timeoutFailure u)) "url" = .str u ∧
     pyGet (response_result (.timeoutFailure u)) "detail" =
       .str ("Exception for " ++ u)) ∧
    (pyGet (response_result (.ambiguousFailure u)) "status" = .int 777 ∧
     pyGet (response_result (.ambiguousFailure u)) "title" = .str "AMBIGUOUS ERROR" ∧
     pyGet (response_result (.ambiguousFailure u)) "url" = .str u ∧
     pyGet (response_result (.ambiguousFailure u)) "detail" =
       .str ("Exception for " ++ u)) ∧
    (pyGet (response_result (.httpErrorNoResponse u)) "status" = .int 400 ∧
     pyGet (response_result (.httpErrorNoResponse u)) "title" = .str "HTTP ERROR" ∧
     pyGet (response_result (.httpErrorNoResponse u)) "url" = .str u ∧
     pyGet (response_result (.httpErrorNoResponse u)) "detail" =
       .str ("Exception for " ++ u)) :=
  ⟨⟨rfl, rfl, rfl, rfl⟩, ⟨rfl, rfl, rfl, rfl⟩, ⟨rfl, rfl, rfl, rfl⟩,
   rfl, rfl, rfl, rfl⟩

/-- C2 (counterexample): for a non-2xx response whose decoded JSON body is an
object without a `detail` key, the claim requires the literal
`something wrong`, but `_response_fault_handling` takes
`response.json().get('detail')`, which is Python `None` for such a body. -/
theorem C2_counterexample :
    pyGet (response_fault_handling
      { status_code := 500, reason := "Internal Server Error",
        url := "http://modis.test/subset",
        body := .dict [("message", .str "bad band")],
        text := "x" }) "detail" = PyObj.none ∧
    PyObj.none ≠ PyObj.str "something wrong" :=
  ⟨rfl, by simp⟩

/-- C2 (amended): for every response on which error normalization runs
(`raise_for_status` triggers it exactly for a 4xx/5xx status), the normalized
mapping carries the numeric status code, the reason phrase as title and the
final request URL; the detail is the body's `detail` entry — Python `None`
when the key is absent — if the decoded body is an object, the text body
with trailing newlines stripped and double quotes removed if the decoded
body is a bare string, and the literal `something wrong` otherwise. -/
theorem C2_amended_http_error_detail (r : HttpResponse) :
    pyGet (response_fault_handling r) "status" = .int r.status_code ∧
    pyGet (response_fault_handling r) "title" = .str r.reason ∧
    pyGet (response_fault_handling r) "url" = .str r.url ∧
    pyGet (response_fault_handling r) "detail" =
      (match r.body with
       | .dict es => assocGetD es "detail" .none
       | .str _ => .str ((pyRemoveQuotes (pyRstripNewlines r.text)).asString)
       | _ => .str "something wrong") ∧
    (400 ≤ r.status_code ∧ r.status_code < 600 →
      response_result (.response r) = response_fault_handling r) := by
  obtain ⟨sc, rs, u, b, t⟩ := r
  have hsel : response_result (.response ⟨sc, rs, u, b, t⟩) =
      (if 400 ≤ sc ∧ sc < 600 then response_fault_handling ⟨sc, rs, u, b, t⟩
       else b) := rfl
  cases b <;>
    exact ⟨rfl, rfl, rfl, rfl, fun h => by rw [hsel, if_pos h]⟩

/-- C2 (witness): the spec scenario — a 500 response whose JSON body is
`{"detail": "bad band"}` normalizes to status 500 with detail `bad band`,
and error normalization is what `_response` performs on that response. -/
theorem C2_witness :
    pyGet (response_fault_handling
      { status_code := 500, reason := "Internal Server Error",
        url := "http://modis.test/subset",
        body := .dict [("detail", .str "bad band")],
        text := "x" }) "status" = .int 500 ∧
    pyGet (response_fault_handling
      { status_code := 500, reason := "Internal Server Error",
        url := "http://modis.test/subset",
        body := .dict [("detail", .str "bad band")],
        text := "x" }) "detail" = .str "bad band" ∧
    ((400 : Int) ≤ 500 ∧ (500 : Int) < 600) ∧
    response_result (.response
      { status_code := 500, reason := "Internal Server Error",
        url := "http://modis.test/subset",
        body := .dict [("detail", .str "bad band")],
        text := "x" }) =
      response_fault_handling
        { status_code := 500, reason := "Internal Server Error",
          url := "http://modis.test/subset",
          body := .dict [("detail", .str "bad band")],
          text := "x" } :=
  ⟨rfl, rfl, ⟨by decide, by decide⟩,
    (C2_amended_http_error_detail
      { status_code := 500, reason := "Internal Server Error",
        url := "http://modis.test/subset",
        body := .dict [("detail", .str "bad band")],
        text := "x" }).2.2.2.2 ⟨by decide, by decide⟩⟩

/-- C4 (confirmed): `compute_date_interval` raises the invalid-range
`ValueError` exactly when the numeric value of the raw start date exceeds
the numeric value of the raw end date; the check is on the raw inputs before
any snapping — the equivalence holds for every date list, including lists on
which snapping itself would fail. -/
theorem C4_invalid_range_check (D : List String) (s e : String) (sv ev : Nat)
    (hs : compositeVal? s = some sv) (he : compositeVal? e = some ev) :
    compute_date_interval D s e = .error .invalidRange ↔ ev < sv := by
  unfold compute_date_interval
  simp only [hs, he]
  by_cases hgt : (sv : Int) - (ev : Int) > 0
  · rw [if_pos hgt]
    constructor
    · intro _
      omega
    · intro _
      rfl
  · rw [if_neg hgt]
    constructor
    · intro h
      exfalso
      rcases hfs : find_closest_composite_date D s with _ | sc <;>
        rcases hfe : find_closest_composite_date D e with _ | ec <;>
          simp only [hfs, hfe] at h
      · simp at h
      · simp at h
      · simp at h
      · rcases hfi : List.findIdx? (fun d => d == sc) D with _ | i <;>
          rcases hfj : List.findIdx? (fun d => d == ec) D with _ | j <;>
            simp only [hfi, hfj] at h <;> simp at h
    · intro h
      exact absurd h (by omega)

/-- C4 (witness): the spec scenario `interval(D, "A2020340", "A2020330")`
hits the invalid-range error. -/
theorem C4_witness :
    compositeVal? "A2020340" = some 2020340 ∧
    compositeVal? "A2020330" = some 2020330 ∧
    (compute_date_interval ["A2020330", "A2020337", "A2020345"]
        "A2020340" "A2020330" = .error .invalidRange ↔ 2020330 < 2020340) :=
  ⟨rfl, rfl,
    C4_invalid_range_check ["A2020330", "A2020337", "A2020345"]
      "A2020340" "A2020330" 2020340 2020330 rfl rfl⟩

/-- C5 (counterexample): with the date `"A0202001"` — of the composite form
`A` + 7 digits, but with a leading zero in the digit block — and equal (hence
ordered) endpoints, `compute_date_interval` raises a `ValueError` instead of
yielding the slice `["A0202001"]`: the snapped date is rebuilt as
`f'A{closest}'`, which drops the leading zero, so `list.index` cannot find
it. -/
theorem C5_counterexample :
    compositeVal? "A0202001" = some 202001 ∧
    compute_date_interval ["A0202001"] "A0202001" "A0202001" =
      .error .valueError ∧
    (Except.error UtilsError.valueError : Except UtilsError (List String)) ≠
      .ok ["A0202001"] :=
  ⟨rfl, rfl, by simp⟩

/-- C5 (amended): for every non-empty date list `D` whose elements are
composite dates with a nonzero leading digit, and endpoints with
numeric(start) ≤ numeric(end), `interval(D, start, end)` succeeds and yields
exactly the contiguous slice of `D` from the first position of
`nearest(D, start)` through the first position of `nearest(D, end)`
inclusive. -/
theorem C5_amended_interval_slice (D : List String) (s e : String) (sv ev : Nat)
    (hne : D ≠ []) (hD : ∀ d ∈ D, isGoodDate d = true)
    (hs : compositeVal? s = some sv) (he : compositeVal? e = some ev)
    (hle : sv ≤ ev) :
    ∃ sc ec i j, find_closest_composite_date D s = some sc ∧
      find_closest_composite_date D e = some ec ∧
      List.findIdx? (fun d => d == sc) D = some i ∧
      List.findIdx? (fun d => d == ec) D = some j ∧
      compute_date_interval D s e = .ok ((D.drop i).take (j + 1 - i)) :=
  interval_spec hne hD hs he hle

/-- C5 (witness): the spec scenario — snapping `"A2020331"`, `"A2020340"`
into `["A2020330", "A2020337", "A2020345"]` yields
`["A2020330", "A2020337"]`. -/
theorem C5_witness :
    (["A2020330", "A2020337", "A2020345"] : List String) ≠ [] ∧
    (∀ d ∈ (["A2020330", "A2020337", "A2020345"] : List String),
      isGoodDate d = true) ∧
    compositeVal? "A2020331" = some 2020331 ∧
    compositeVal? "A2020340" = some 2020340 ∧
    2020331 ≤ 2020340 ∧
    (∃ sc ec i j,
      find_closest_composite_date ["A2020330", "A2020337", "A2020345"]
          "A2020331" = some sc ∧
      find_closest_composite_date ["A2020330", "A2020337", "A2020345"]
          "A2020340" = some ec ∧
      List.findIdx? (fun d => d == sc)
          ["A2020330", "A2020337", "A2020345"] = some i ∧
      List.findIdx? (fun d => d == ec)
          ["A2020330", "A2020337", "A2020345"] = some j ∧
      compute_date_interval ["A2020330", "A2020337", "A2020345"]
          "A2020331" "A2020340" =
        .ok (((["A2020330", "A2020337", "A2020345"] : List String).drop i).take
          (j + 1 - i))) ∧
    compute_date_interval ["A2020330", "A2020337", "A2020345"]
        "A2020331" "A2020340" = .ok ["A2020330", "A2020337"] :=
  ⟨by simp, by decide, rfl, rfl, by decide,
    C5_amended_interval_slice ["A2020330", "A2020337", "A2020345"]
      "A2020331" "A2020340" 2020331 2020340 (by simp) (by decide) rfl rfl
      (by decide),
    rfl⟩

/-- C6 (counterexample): for the singleton list holding `"A0202001"` — of the
composite form `A` + 7 digits — with the pivot equal to that very element,
`nearest` returns `"A202001"`, which is neither the pivot nor an element of
the list: `f'A{closest}'` drops the leading zero of the digit block. -/
theorem C6_counterexample :
    ("A0202001" ∈ (["A0202001"] : List String)) ∧
    isCompositeForm "A0202001" = true ∧
    find_closest_composite_date ["A0202001"] "A0202001" = some "A202001" ∧
    ("A202001" ∉ (["A0202001"] : List String)) ∧
    "A202001" ≠ "A0202001" :=
  ⟨by decide, by decide, rfl, by decide, by decide⟩

/-- C6 (amended): for every non-empty list `D` of composite dates whose
7-digit blocks have a nonzero leading digit, and every pivot of composite
form, `nearest(D, p)` returns an element of `D`; and if `p ∈ D` then
`nearest(D, p) = p`. -/
theorem C6_amended_nearest_membership (D : List String) (p : String)
    (hne : D ≠ []) (hD : ∀ d ∈ D, isGoodDate d = true)
    (hp : isCompositeForm p = true) :
    ∃ r, find_closest_composite_date D p = some r ∧ r ∈ D ∧ (p ∈ D → r = p) :=
  closest_spec hne hD (compositeVal_of_form hp)

/-- C6 (witness): on `["A2020330", "A2020337"]` with the member pivot
`"A2020337"`, `nearest` returns the pivot itself. -/
theorem C6_witness :
    (["A2020330", "A2020337"] : List String) ≠ [] ∧
    (∀ d ∈ (["A2020330", "A2020337"] : List String), isGoodDate d = true) ∧
    isCompositeForm "A2020337" = true ∧
    (∃ r, find_closest_composite_date ["A2020330", "A2020337"] "A2020337" =
        some r ∧ r ∈ (["A2020330", "A2020337"] : List String) ∧
      ("A2020337" ∈ (["A2020330", "A2020337"] : List String) → r = "A2020337")) ∧
    find_closest_composite_date ["A2020330", "A2020337"] "A2020337" =
      some "A2020337" :=
  ⟨by simp, by decide, by decide,
    C6_amended_nearest_membership ["A2020330", "A2020337"] "A2020337"
      (by simp) (by decide) (by decide),
    rfl⟩

/-- Inversion of a successful `compute_date_interval`: any yielded list is a
contiguous slice of the input date list. -/
theorem compute_date_interval_ok_shape {D : List String} {s e : String}
    {L : List String} (h : compute_date_interval D s e = .ok L) :
    ∃ i j, L = (D.drop i).take (j + 1 - i) := by
  unfold compute_date_interval at h
  rcases hs : compositeVal? s with _ | sv <;>
    rcases he : compositeVal? e with _ | ev <;>
      simp only [hs, he] at h
  · simp at h
  · simp at h
  · simp at h
  · by_cases hgt : (sv : Int) - (ev : Int) > 0
    · rw [if_pos hgt] at h
      simp at h
    · rw [if_neg hgt] at h
      rcases hfs : find_closest_composite_date D s with _ | sc <;>
        rcases hfe : find_closest_composite_date D e with _ | ec <;>
          simp only [hfs, hfe] at h
      · simp at h
      · simp at h
      · simp at h
      · rcases hfi : List.findIdx? (fun d => d == sc) D with _ | i <;>
          rcases hfj : List.findIdx? (fun d => d == ec) D with _ | j <;>
            simp only [hfi, hfj] at h
        · simp at h
        · simp at h
        · simp at h
        · refine ⟨i, j, ?_⟩
          injection h with h
          exact h.symm

/-- C7 (confirmed): `execute_many`, when the initial dates call returns an
error mapping (a mapping with a `status` key), yields exactly that single
mapping; otherwise it sorts the date records ascending by `modis_date`,
resolves the sub-range with `compute_date_interval`, and yields exactly one
`subset(d, d)` result per date `d` of the sub-range, in ascending date
order (the sub-range is sorted under the Python string order, which on
composite dates agrees with the numeric order). -/
theorem C7_execute_many_spec (datesResp : PyObj)
    (subset : String → String → PyObj) (s e : String) :
    (pyContains datesResp "status" = true →
      execute_many datesResp subset s e = .ok [datesResp]) ∧
    (pyContains datesResp "status" = false →
      ∀ L, compute_date_interval (sortedTimeDates datesResp) s e = .ok L →
        execute_many datesResp subset s e = .ok (L.map (fun d => subset d d)) ∧
        List.Pairwise (fun a b => pyStrLe a b = true) L) := by
  constructor
  · intro h
    unfold execute_many
    rw [if_pos h]
  · intro h L hL
    constructor
    · unfold execute_many
      rw [if_neg (by simp [h]), hL]
    · obtain ⟨i, j, rfl⟩ := compute_date_interval_ok_shape hL
      exact pairwise_slice (sortedTimeDates_sorted datesResp) i (j + 1 - i)

/-- C7 (witness): a concrete dates payload with out-of-order records is
sorted, snapped and mapped to one subset call per interval date; a concrete
error payload is yielded unchanged. -/
theorem C7_witness :
    pyContains (PyObj.dict [("dates", .list
      [.dict [("calendar_date", .str "c2"), ("modis_date", .str "A2020337")],
       .dict [("calendar_date", .str "c1"), ("modis_date", .str "A2020330")],
       .dict [("calendar_date", .str "c3"), ("modis_date", .str "A2020345")]])])
      "status" = false ∧
    compute_date_interval
      (sortedTimeDates (PyObj.dict [("dates", .list
        [.dict [("calendar_date", .str "c2"), ("modis_date", .str "A2020337")],
         .dict [("calendar_date", .str "c1"), ("modis_date", .str "A2020330")],
         .dict [("calendar_date", .str "c3"), ("modis_date", .str "A2020345")]])]))
      "A2020331" "A2020340" = .ok ["A2020330", "A2020337"] ∧
    (execute_many (PyObj.dict [("dates", .list
        [.dict [("calendar_date", .str "c2"), ("modis_date", .str "A2020337")],
         .dict [("calendar_date", .str "c1"), ("modis_date", .str "A2020330")],
         .dict [("calendar_date", .str "c3"), ("modis_date", .str "A2020345")]])])
      (fun a b => PyObj.str (a ++ "|" ++ b)) "A2020331" "A2020340" =
        .ok (["A2020330", "A2020337"].map
          (fun d => PyObj.str (d ++ "|" ++ d))) ∧
      List.Pairwise (fun a b => pyStrLe a b = true)
        ["A2020330", "A2020337"]) ∧
    pyContains (PyObj.dict [("status", .int 777)]) "status" = true ∧
    execute_many (PyObj.dict [("status", .int 777)])
      (fun a b => PyObj.str (a ++ "|" ++ b)) "A2020331" "A2020340" =
      .ok [PyObj.dict [("status", .int 777)]] :=
  ⟨rfl, rfl,
    (C7_execute_many_spec (PyObj.dict [("dates", .list
        [.dict [("calendar_date", .str "c2"), ("modis_date", .str "A2020337")],
         .dict [("calendar_date", .str "c1"), ("modis_date", .str "A2020330")],
         .dict [("calendar_date", .str "c3"), ("modis_date", .str "A2020345")]])])
      (fun a b => PyObj.str (a ++ "|" ++ b)) "A2020331" "A2020340").2 rfl
      ["A2020330", "A2020337"] rfl,
    rfl,
    (C7_execute_many_spec (PyObj.dict [("status", .int 777)])
      (fun a b => PyObj.str (a ++ "|" ++ b)) "A2020331" "A2020340").1 rfl⟩

/-- C3 (counterexample): a successful products response with the non-empty
list `[{"product": "ZZZTEST"}]` — a code outside the known vocabulary —
makes `available_products_by_date` return a report that classifies nothing:
both `available` and `not_available` are empty, so the first product is not
classified into either bucket as the claim requires. -/
theorem C3_counterexample :
    available_products_by_date
      { vocab := productsVocabulary,
        productsResp := .dict [("products", .list
          [.dict [("product", .str "ZZZTEST")]])],
        datesOf := fun _ => .dict [], urlOf := fun _ => "",
        referenceDate := "A2021001", latitudeStr := "41.84936",
        longitudeStr := "13.58814" } =
      some (.dict [("date", .str "A2021001"), ("available", .list []),
        ("not_available", .list [])]) ∧
    (asList (pyGet (PyObj.dict [("products", .list
      [.dict [("product", .str "ZZZTEST")]])]) "products")).length = 1 ∧
    pyContains (PyObj.dict [("products", .list
      [.dict [("product", .str "ZZZTEST")]])]) "status" = false :=
  ⟨rfl, rfl, rfl⟩

/-- C3 (amended): on a successful products response with a non-empty product
list, `available_products_by_date` returns after processing only the first
product — the result depends only on that first product, so no later product
is queried or classified — and the report classifies exactly the first
product (into `available` or `not_available`) when its uppercased code is in
the known vocabulary, and classifies nothing when it is not. -/
theorem C3_amended_first_product_only (ctx : AvailCtx) (p : PyObj)
    (rest : List PyObj)
    (hok : pyContains ctx.productsResp "status" = false)
    (hlist : asList (pyGet ctx.productsResp "products") = p :: rest) :
    available_products_by_date ctx =
      some (ProductReport.toPy (availStep ctx
        { date := ctx.referenceDate, available := [], not_available := [] } p)) ∧
    (pyUpper (pyGetStrD p "product") ∈ ctx.vocab →
      ((availStep ctx
          { date := ctx.referenceDate, available := [], not_available := [] }
          p).available = [p] ∧
        (availStep ctx
          { date := ctx.referenceDate, available := [], not_available := [] }
          p).not_available = []) ∨
      ((availStep ctx
          { date := ctx.referenceDate, available := [], not_available := [] }
          p).available = [] ∧
        ∃ q, (availStep ctx
          { date := ctx.referenceDate, available := [], not_available := [] }
          p).not_available = [q])) ∧
    (pyUpper (pyGetStrD p "product") ∉ ctx.vocab →
      (availStep ctx
        { date := ctx.referenceDate, available := [], not_available := [] }
        p).available = [] ∧
      (availStep ctx
        { date := ctx.referenceDate, available := [], not_available := [] }
        p).not_available = []) := by
  refine ⟨?_, ?_, ?_⟩
  · unfold available_products_by_date
    rw [if_neg (by simp [hok]), hlist]
  · intro hv
    simp only [availStep]
    rw [if_pos hv]
    by_cases hstat : pyContains
        (ctx.datesOf (pyUpper (pyGetStrD p "product"))) "status" = false
    · rw [if_pos hstat]
      by_cases href : ctx.referenceDate ∈
          (asList (pyGet (ctx.datesOf (pyUpper (pyGetStrD p "product")))
            "dates")).map (fun d => pyGetStrD d "modis_date")
      · rw [if_pos href]
        left
        exact ⟨rfl, rfl⟩
      · rw [if_neg href]
        right
        exact ⟨rfl, _, rfl⟩
    · rw [if_neg hstat]
      right
      exact ⟨rfl, _, rfl⟩
  · intro hv
    simp only [availStep]
    rw [if_neg hv]
    exact ⟨rfl, rfl⟩

/-- C3 (witness): with a single in-vocabulary product whose dates contain
the reference date, the report classifies exactly that product as
available. -/
theorem C3_witness :
    pyContains (PyObj.dict [("products", .list
      [.dict [("product", .str "MOD13Q1")]])]) "status" = false ∧
    asList (pyGet (PyObj.dict [("products", .list
      [.dict [("product", .str "MOD13Q1")]])]) "products") =
      [PyObj.dict [("product", .str "MOD13Q1")]] ∧
    available_products_by_date
      { vocab := productsVocabulary,
        productsResp := .dict [("products", .list
          [.dict [("product", .str "MOD13Q1")]])],
        datesOf := fun _ => .dict [("dates", .list
          [.dict [("modis_date", .str "A2021001")]])],
        urlOf := fun _ => "http://modis.test/dates",
        referenceDate := "A2021001", latitudeStr := "41.84936",
        longitudeStr := "13.58814" } =
      some (ProductReport.toPy (availStep
        { vocab := productsVocabulary,
          productsResp := .dict [("products", .list
            [.dict [("product", .str "MOD13Q1")]])],
          datesOf := fun _ => .dict [("dates", .list
            [.dict [("modis_date", .str "A2021001")]])],
          urlOf := fun _ => "http://modis.test/dates",
          referenceDate := "A2021001", latitudeStr := "41.84936",
          longitudeStr := "13.58814" }
        { date := "A2021001", available := [], not_available := [] }
        (PyObj.dict [("product", .str "MOD13Q1")]))) ∧
    available_products_by_date
      { vocab := productsVocabulary,
        productsResp := .dict [("products", .list
          [.dict [("product", .str "MOD13Q1")]])],
        datesOf := fun _ => .dict [("dates", .list
          [.dict [("modis_date", .str "A2021001")]])],
        urlOf := fun _ => "http://modis.test/dates",
        referenceDate := "A2021001", latitudeStr := "41.84936",
        longitudeStr := "13.58814" } =
      some (.dict [("date", .str "A2021001"),
        ("available", .list [.dict [("product", .str "MOD13Q1")]]),
        ("not_available", .list [])]) :=
  ⟨rfl, rfl,
    (C3_amended_first_product_only
      { vocab := productsVocabulary,
        productsResp := .dict [("products", .list
          [.dict [("product", .str "MOD13Q1")]])],
        datesOf := fun _ => .dict [("dates", .list
          [.dict [("modis_date", .str "A2021001")]])],
        urlOf := fun _ => "http://modis.test/dates",
        referenceDate := "A2021001", latitudeStr := "41.84936",
        longitudeStr := "13.58814" }
      (PyObj.dict [("product", .str "MOD13Q1")]) [] rfl rfl).1,
    rfl⟩

/-- C8 (confirmed): setting the maximum concurrent requests property to any
value strictly above 10 raises the configuration `ValueError` at the
assignment and leaves the stored limit unchanged; setting it to any value at
most 10 succeeds and the accessor returns the new value. -/
theorem C8_concurrency_limit_setter (st : ProviderState) (n : Int) :
    (10 < n → set_maximum_concurrent_number st n =
      (st, some (concurrentNumberErrMsg n))) ∧
    (n ≤ 10 → set_maximum_concurrent_number st n =
        ({ MAXIMUM_CONCURRENT_NUMBER := n }, Option.none) ∧
      maximum_concurrent_number { MAXIMUM_CONCURRENT_NUMBER := n } = n) := by
  constructor
  · intro h
    unfold set_maximum_concurrent_number
    rw [if_pos h]
  · intro h
    unfold set_maximum_concurrent_number
    rw [if_neg (by omega)]
    exact ⟨rfl, rfl⟩

/-- C8 (witness): setting the limit to 11 errors with the state unchanged;
setting it to 10 succeeds and is reflected by the accessor. -/
theorem C8_witness :
    ((10 : Int) < 11 ∧ set_maximum_concurrent_number ⟨10⟩ 11 =
      (⟨10⟩, some (concurrentNumberErrMsg 11))) ∧
    ((10 : Int) ≤ 10 ∧ set_maximum_concurrent_number ⟨10⟩ 10 =
        (⟨10⟩, Option.none) ∧
      maximum_concurrent_number ⟨10⟩ = 10) :=
  ⟨⟨by decide, (C8_concurrency_limit_setter ⟨10⟩ 11).1 (by decide)⟩,
   ⟨by decide, (C8_concurrency_limit_setter ⟨10⟩ 10).2 (by decide)⟩⟩

/-- C9 (counterexample): `available_products_by_date` on a successful
products response with an empty product list falls off the loop and returns
Python `None` — no mapping at all — contradicting the part of the claim that
every operation returns a mapping that is an error exactly when it carries a
`status` key. -/
theorem C9_counterexample :
    available_products_by_date
      { vocab := productsVocabulary,
        productsResp := .dict [("products", .list [])],
        datesOf := fun _ => .dict [], urlOf := fun _ => "",
        referenceDate := "A2021001", latitudeStr := "41.84936",
        longitudeStr := "13.58814" } = Option.none ∧
    pyContains (PyObj.dict [("products", PyObj.list [])]) "status" = false :=
  ⟨rfl, rfl⟩

/-- C9 (amended): the discriminator law holds for the single-request client —
every normalized error mapping produced by `_response` carries a `status`
key, and a 2xx body is passed through unchanged (so it carries `status` only
if the upstream payload did) — and it holds for the mappings
`available_products_by_date` returns; but the latter can also return Python
`None`, i.e. no mapping at all, on an empty product list. -/
theorem C9_amended_discriminator :
    (∀ r : HttpResponse, 400 ≤ r.status_code → r.status_code < 600 →
      pyContains (response_result (.response r)) "status" = true) ∧
    (∀ r : HttpResponse, ¬(400 ≤ r.status_code ∧ r.status_code < 600) →
      response_result (.response r) = r.body) ∧
    (∀ u, pyContains (response_result (.httpErrorNoResponse u)) "status" = true) ∧
    (∀ u, pyContains (response_result (.connectionFailure u)) "status" = true) ∧
    (∀ u, pyContains (response_result (.timeoutFailure u)) "status" = true) ∧
    (∀ u, pyContains (response_result (.ambiguousFailure u)) "status" = true) ∧
    (∀ (ctx : AvailCtx) (res : PyObj), available_products_by_date ctx = some res →
      pyContains res "status" = pyContains ctx.productsResp "status") := by
  refine ⟨?_, ?_, fun _ => rfl, fun _ => rfl, fun _ => rfl, fun _ => rfl, ?_⟩
  · intro r h1 h2
    obtain ⟨sc, rs, u, b, t⟩ := r
    have hsel : response_result (.response ⟨sc, rs, u, b, t⟩) =
        (if 400 ≤ sc ∧ sc < 600 then response_fault_handling ⟨sc, rs, u, b, t⟩
         else b) := rfl
    rw [hsel, if_pos ⟨h1, h2⟩]
    cases b <;> rfl
  · intro r h
    obtain ⟨sc, rs, u, b, t⟩ := r
    have hsel : response_result (.response ⟨sc, rs, u, b, t⟩) =
        (if 400 ≤ sc ∧ sc < 600 then response_fault_handling ⟨sc, rs, u, b, t⟩
         else b) := rfl
    rw [hsel, if_neg h]
  · intro ctx res h
    unfold available_products_by_date at h
    by_cases hp : pyContains ctx.productsResp "status" = true
    · rw [if_pos hp] at h
      injection h with h
      rw [← h, hp]
    · rw [if_neg hp] at h
      rcases hl : asList (pyGet ctx.productsResp "products") with _ | ⟨p, ps⟩ <;>
        rw [hl] at h
      · exact absurd h (by simp)
      · injection h with h
        rw [Bool.not_eq_true] at hp
        rw [← h, hp]
        rfl

/-- C9 (witness): concrete instances of the amended law — the report of a
successful run has no `status` key, matching its successful products input,
and a connection-failure error mapping has one. -/
theorem C9_witness :
    available_products_by_date
      { vocab := productsVocabulary,
        productsResp := .dict [("products", .list
          [.dict [("product", .str "MOD13Q1")]])],
        datesOf := fun _ => .dict [("dates", .list
          [.dict [("modis_date", .str "A2021001")]])],
        urlOf := fun _ => "http://modis.test/dates",
        referenceDate := "A2021001", latitudeStr := "41.84936",
        longitudeStr := "13.58814" } =
      some (.dict [("date", .str "A2021001"),
        ("available", .list [.dict [("product", .str "MOD13Q1")]]),
        ("not_available", .list [])]) ∧
    pyContains (PyObj.dict [("date", .str "A2021001"),
        ("available", .list [.dict [("product", .str "MOD13Q1")]]),
        ("not_available", .list [])]) "status" =
      pyContains (PyObj.dict [("products", .list
        [.dict [("product", .str "MOD13Q1")]])]) "status" ∧
    pyContains (response_result (.connectionFailure "http://modis.test"))
      "status" = true :=
  ⟨rfl,
    C9_amended_discriminator.2.2.2.2.2.2
      { vocab := productsVocabulary,
        productsResp := .dict [("products", .list
          [.dict [("product", .str "MOD13Q1")]])],
        datesOf := fun _ => .dict [("dates", .list
          [.dict [("modis_date", .str "A2021001")]])],
        urlOf := fun _ => "http://modis.test/dates",
        referenceDate := "A2021001", latitudeStr := "41.84936",
        longitudeStr := "13.58814" }
      (.dict [("date", .str "A2021001"),
        ("available", .list [.dict [("product", .str "MOD13Q1")]]),
        ("not_available", .list [])]) rfl,
    C9_amended_discriminator.2.2.2.1 "http://modis.test"⟩

/-- C10 (confirmed): the setter enforces no lower bound — every integer at
most 10, including 0 and negatives, is accepted and then returned by the
accessor — even though the chunk-splitting step of the concurrent
orchestrators is unusable there: splitting with limit 0 raises (`range` with
step 0), and a negative limit produces no chunks at all. -/
theorem C10_no_lower_bound (st : ProviderState) (n : Int)
    (dates : List String) (h : n ≤ 10) :
    set_maximum_concurrent_number st n =
      ({ MAXIMUM_CONCURRENT_NUMBER := n }, Option.none) ∧
    maximum_concurrent_number { MAXIMUM_CONCURRENT_NUMBER := n } = n ∧
    chunkDates dates 0 = Option.none ∧
    (n < 0 → chunkDates dates n = some []) := by
  refine ⟨?_, rfl, ?_, ?_⟩
  · unfold set_maximum_concurrent_number
    rw [if_neg (by omega)]
  · unfold chunkDates pyRange
    rw [if_pos rfl]
  · intro hneg
    unfold chunkDates pyRange
    rw [if_neg (by omega)]
    simp only [if_neg (show ¬ n > 0 by omega)]
    have hcount : ((0 : Int) - (dates.length : Int) + (-n) - 1).toNat /
        (-n).toNat = 0 := by
      rcases le_or_lt ((0 : Int) - (dates.length : Int) + (-n) - 1) 0 with hle | hlt
      · have : ((0 : Int) - (dates.length : Int) + (-n) - 1).toNat = 0 := by
          omega
        rw [this]
        exact Nat.zero_div _
      · exact Nat.div_eq_of_lt (by omega)
    rw [hcount]
    rfl

/-- C10 (witness): setting the limit to -3 succeeds, the accessor returns
-3, and chunking a non-empty date list with limit 0 errors while with -3 it
produces no chunks. -/
theorem C10_witness :
    (-3 : Int) ≤ 10 ∧
    (set_maximum_concurrent_number ⟨10⟩ (-3) = (⟨-3⟩, Option.none) ∧
      maximum_concurrent_number ⟨-3⟩ = -3 ∧
      chunkDates ["A2020001"] 0 = Option.none ∧
      ((-3 : Int) < 0 → chunkDates ["A2020001"] (-3) = some [])) ∧
    chunkDates ["A2020001"] (-3) = some [] :=
  ⟨by decide, C10_no_lower_bound ⟨10⟩ (-3) ["A2020001"] (by decide), rfl⟩

end ModisSpec
